import Mathlib

/-!
Verification of the ripple/water background pipeline of the poems guest book
application, against its natural-language specification.

The definitions below are a shallow embedding of
`src/components/RippleBackground/WaterSimulation.js` and
`src/components/RippleBackground/RippleBackground.jsx`.  GLSL floating point
arithmetic is modelled over ℝ; texel indices are naturals; texture reads are
clamped into range, matching the `CLAMP_TO_EDGE` wrap mode both textures are
created with.
-/

namespace Ripple

/-- One texel of the RGBA simulation texture.  Per the source comments:
R stores the height, G the momentum, and the normal pass packs the two
horizontal normal components into B and A. -/
@[ext]
structure Cell where
  r : ℝ
  g : ℝ
  b : ℝ
  a : ℝ

/-- Contents of one `width × height` floating-point texture.  The texture is
modelled as a total function on ℕ × ℕ: every read the shaders perform is
clamped into range (the `CLAMP_TO_EDGE` wrap mode set in `createTexture`), and
every whole-field observation (sums, means) ranges over indices `< width` and
`< height` only. -/
def Field : Type := ℕ → ℕ → Cell

noncomputable section

/-- Texture coordinate of the centre of texel `i` on an axis of `n` texels:
the fragment for that texel sees `coord = (i + 0.5) / n`. -/
def texCenter (n i : ℕ) : ℝ := ((i : ℝ) + 0.5) / (n : ℝ)

/-- The 4-neighbour height average computed by the update shader:
`delta = (1/width, 1/height)` steps exactly one texel, and sampling one texel
outside the texture is clamped back to the edge texel (`CLAMP_TO_EDGE`), which
on indices is truncated subtraction on the low edge and `min (i+1) (w-1)` on
the high edge. -/
def nbrAvg (w h : ℕ) (f : Field) (i j : ℕ) : ℝ :=
  ((f (i - 1) j).r + (f i (j - 1)).r + (f (min (i + 1) (w - 1)) j).r +
      (f i (min (j + 1) (h - 1))).r) * 0.25

/-- The update shader body (`updateProgram` in `WaterSimulation.js`):
`info.g += (average - info.r) * 2.0; info.g *= 0.995; info.r += info.g;`
with B and A passed through unchanged. -/
def stepCell (w h : ℕ) (f : Field) (i j : ℕ) : Cell :=
  let info := f i j
  let g2 := (info.g + (nbrAvg w h f i j - info.r) * 2.0) * 0.995
  { info with g := g2, r := info.r + g2 }

/-- One full-texture pass of the update shader. -/
def stepField (w h : ℕ) (f : Field) : Field := fun i j => stepCell w h f i j

/-- Distance used by the drop shader:
`length(center * 0.5 + 0.5 - coord)` where `center` is the drop centre in
normalised device coordinates and `coord` is the texel-centre coordinate. -/
def dropDist (w h : ℕ) (cx cy : ℝ) (i j : ℕ) : ℝ :=
  Real.sqrt ((cx * 0.5 + 0.5 - texCenter w i) ^ 2 + (cy * 0.5 + 0.5 - texCenter h j) ^ 2)

/-- The drop shader body (`dropProgram` in `WaterSimulation.js`):
`float drop = max(0.0, 1.0 - length(center * 0.5 + 0.5 - coord) / radius);`
`drop = 0.5 - cos(drop * PI) * 0.5; info.r += drop * strength;`
with G, B and A passed through unchanged. -/
def dropCell (w h : ℕ) (cx cy radius strength : ℝ) (f : Field) (i j : ℕ) : Cell :=
  let info := f i j
  let drop0 := max 0 (1 - dropDist w h cx cy i j / radius)
  let drop := 0.5 - Real.cos (drop0 * Real.pi) * 0.5
  { info with r := info.r + drop * strength }

/-- One full-texture pass of the drop shader. -/
def dropField (w h : ℕ) (cx cy radius strength : ℝ) (f : Field) : Field :=
  fun i j => dropCell w h cx cy radius strength f i j

/-- The normal shader body (`normalProgram` in `WaterSimulation.js`):
`info.ba = normalize(vec3(hL - hR, 2.0 * delta.x, hU - hD)).xz;`
with R and G passed through unchanged. -/
def normalCell (w h : ℕ) (f : Field) (i j : ℕ) : Cell :=
  let info := f i j
  let hL := (f (i - 1) j).r
  let hR := (f (min (i + 1) (w - 1)) j).r
  let hU := (f i (j - 1)).r
  let hD := (f i (min (j + 1) (h - 1))).r
  let vx := hL - hR
  let vy := 2.0 * (1 / (w : ℝ))
  let vz := hU - hD
  let len := Real.sqrt (vx ^ 2 + vy ^ 2 + vz ^ 2)
  { info with b := vx / len, a := vz / len }

/-- One full-texture pass of the normal shader. -/
def normalField (w h : ℕ) (f : Field) : Field := fun i j => normalCell w h f i j

/-- A GPU texture object: its identity (the reference held in `textureA` or
`textureB`) together with its current contents. -/
structure Buffer where
  id : ℕ
  data : Field

/-- The `WaterSimulation` buffer state.  `texA` is the current buffer: every pass
reads it and the render loop binds it for display; `texB` is the write target
of the next pass. -/
structure Sim where
  texA : Buffer
  texB : Buffer

/-- Method `swap()`: exchanges the two texture references. -/
def Sim.swap (s : Sim) : Sim := ⟨s.texB, s.texA⟩

/-- The three public passes of `WaterSimulation`. -/
inductive Op where
  | step : Op
  | drop (cx cy radius strength : ℝ) : Op
  | normals : Op

/-- The full-texture fragment pass each operation runs. -/
def opField (w h : ℕ) : Op → Field → Field
  | .step => stepField w h
  | .drop cx cy radius strength => dropField w h cx cy radius strength
  | .normals => normalField w h

/-- Common shape of `stepSimulation` / `addDrop` / `updateNormals`:
`renderToTexture(this.textureB, ...)` runs the pass reading `textureA` and
writing `textureB`'s storage, then `this.swap()` exchanges the references. -/
def applyOp (w h : ℕ) (op : Op) (s : Sim) : Sim :=
  (Sim.mk s.texA ⟨s.texB.id, opField w h op s.texA.data⟩).swap

/-- Method `stepSimulation()`. -/
def Sim.stepSimulation (w h : ℕ) (s : Sim) : Sim := applyOp w h .step s

/-- Method `addDrop(x, y, radius, strength)`. -/
def Sim.addDrop (w h : ℕ) (cx cy radius strength : ℝ) (s : Sim) : Sim :=
  applyOp w h (.drop cx cy radius strength) s

/-- Method `updateNormals()`. -/
def Sim.updateNormals (w h : ℕ) (s : Sim) : Sim := applyOp w h .normals s

/-- A freshly allocated texture: WebGL zero-initialises texture storage created
with null pixel data. -/
def zeroField : Field := fun _ _ => ⟨0, 0, 0, 0⟩

/-- Constructor state: two distinct texture objects, both zero-initialised. -/
def simInit : Sim := ⟨⟨0, zeroField⟩, ⟨1, zeroField⟩⟩

/-- A sequence of pass calls, applied left to right. -/
def applyOps (w h : ℕ) (ops : List Op) (s : Sim) : Sim :=
  ops.foldl (fun t op => applyOp w h op t) s

/-- Each pass leaves the pair of texture identities a permutation of what it
started with. -/
lemma applyOps_ids (w h : ℕ) (ops : List Op) (s : Sim) :
    ((applyOps w h ops s).texA.id = s.texA.id ∧ (applyOps w h ops s).texB.id = s.texB.id) ∨
    ((applyOps w h ops s).texA.id = s.texB.id ∧ (applyOps w h ops s).texB.id = s.texA.id) := by
  induction ops generalizing s with
  | nil => exact Or.inl ⟨rfl, rfl⟩
  | cons op ops ih =>
    have hstep : applyOps w h (op :: ops) s = applyOps w h ops (applyOp w h op s) := rfl
    rcases ih (applyOp w h op s) with h1 | h1 <;>
      rw [hstep] <;> [exact Or.inr ⟨h1.1, h1.2⟩; exact Or.inl ⟨h1.1, h1.2⟩]

/-- In every state reachable from the constructor, the two buffer references
are distinct. -/
lemma reachable_ids_ne (w h : ℕ) (ops : List Op) :
    (applyOps w h ops simInit).texA.id ≠ (applyOps w h ops simInit).texB.id := by
  rcases applyOps_ids w h ops simInit with h1 | h1 <;>
    rw [h1.1, h1.2] <;> simp [simInit]

/-- Claim C1: one `stepSimulation()` call reads the current buffer and writes
to the other buffer a cell whose momentum is updated as
`momentum += (fourNeighbourAverageHeight - height) * 2.0`, then multiplied by
the damping factor `0.995`, and whose height is then incremented by the new
momentum. -/
theorem stepSimulation_update_rule (w h : ℕ) (s : Sim) (i j : ℕ) :
    ((s.stepSimulation w h).texA.data i j).g =
        ((s.texA.data i j).g + (nbrAvg w h s.texA.data i j - (s.texA.data i j).r) * 2.0)
          * 0.995 ∧
    ((s.stepSimulation w h).texA.data i j).r =
        (s.texA.data i j).r + ((s.stepSimulation w h).texA.data i j).g ∧
    (s.stepSimulation w h).texA.id = s.texB.id ∧
    (s.stepSimulation w h).texB = s.texA :=
  ⟨rfl, rfl, rfl, rfl⟩

/-- Claim C4: after every single pass call the current-buffer reference
differs from its value before the call, in every state reachable by any call
sequence from the constructor; the two references stay distinct, and each call
computes its output only from the previously-current buffer while the other
buffer becomes the new stale one. -/
theorem buffer_alternation (w h : ℕ) (ops : List Op) (op : Op) :
    (applyOp w h op (applyOps w h ops simInit)).texA.id ≠
        (applyOps w h ops simInit).texA.id ∧
    (applyOps w h ops simInit).texA.id ≠ (applyOps w h ops simInit).texB.id ∧
    (applyOp w h op (applyOps w h ops simInit)).texA.data =
        opField w h op (applyOps w h ops simInit).texA.data ∧
    (applyOp w h op (applyOps w h ops simInit)).texB = (applyOps w h ops simInit).texA := by
  refine ⟨?_, reachable_ids_ne w h ops, rfl, rfl⟩
  exact (reachable_ids_ne w h ops).symm

/-- Claim C5: a zero-strength drop is a no-op on the field contents: every
texel is exactly its prior value, so repeated zero-strength calls are
idempotent; at the solver level the (swapped-in) current buffer carries
exactly the prior data. -/
theorem addDrop_zero_strength (w h : ℕ) (cx cy radius : ℝ) (f : Field) (s : Sim) :
    dropField w h cx cy radius 0 f = f ∧
    (s.addDrop w h cx cy radius 0).texA.data = s.texA.data := by
  have key : ∀ g : Field, dropField w h cx cy radius 0 g = g := by
    intro g
    funext i j
    ext <;> simp [dropField, dropCell]
  exact ⟨key f, key s.texA.data⟩

/-- Claim C10: the drop pass changes only the R (height) channel; momentum (G)
and the packed normal components (B, A) are written back unchanged from the
input buffer. -/
theorem addDrop_only_height (w h : ℕ) (cx cy radius strength : ℝ) (f : Field) (i j : ℕ) :
    ((dropField w h cx cy radius strength f) i j).g = (f i j).g ∧
    ((dropField w h cx cy radius strength f) i j).b = (f i j).b ∧
    ((dropField w h cx cy radius strength f) i j).a = (f i j).a :=
  ⟨rfl, rfl, rfl⟩

/-- Claim C3: for positive radius, `addDrop` adds `profile * strength` to each
texel's height, with `profile = 0.5 - 0.5 * cos(π * clamp(1 - dist/radius, 0, 1))`,
and every texel farther than `radius` from the centre keeps its height
(compact support of the profile). -/
theorem addDrop_profile (w h : ℕ) (cx cy radius strength : ℝ) (f : Field) (i j : ℕ)
    (hr : 0 < radius) :
    ((dropField w h cx cy radius strength f) i j).r =
        (f i j).r +
          (0.5 - 0.5 * Real.cos (Real.pi *
            (min 1 (max 0 (1 - dropDist w h cx cy i j / radius))))) * strength ∧
    (radius < dropDist w h cx cy i j →
      ((dropField w h cx cy radius strength f) i j).r = (f i j).r) := by
  have hd0 : 0 ≤ dropDist w h cx cy i j := Real.sqrt_nonneg _
  have hdiv : 0 ≤ dropDist w h cx cy i j / radius := div_nonneg hd0 hr.le
  have hclamp : min 1 (max 0 (1 - dropDist w h cx cy i j / radius)) =
      max 0 (1 - dropDist w h cx cy i j / radius) := by
    apply min_eq_right
    apply max_le (by norm_num)
    linarith
  constructor
  · rw [hclamp]
    show (f i j).r +
        (0.5 - Real.cos (max 0 (1 - dropDist w h cx cy i j / radius) * Real.pi) * 0.5)
          * strength = _
    rw [mul_comm (max 0 (1 - dropDist w h cx cy i j / radius)) Real.pi]
    ring
  · intro hfar
    have h1 : 1 < dropDist w h cx cy i j / radius := (one_lt_div hr).mpr hfar
    have hmax : max 0 (1 - dropDist w h cx cy i j / radius) = 0 := by
      apply max_eq_left
      linarith
    show (f i j).r +
        (0.5 - Real.cos (max 0 (1 - dropDist w h cx cy i j / radius) * Real.pi) * 0.5)
          * strength = (f i j).r
    rw [hmax, zero_mul, Real.cos_zero]
    ring

/-- Concrete instance of `addDrop_profile`: a unit-radius drop on the 2×2
constructor field at texel (0,0). -/
theorem addDrop_profile_witness :
    (0 : ℝ) < 1 ∧
    (((dropField 2 2 0 0 1 0 zeroField) 0 0).r =
        (zeroField 0 0).r +
          (0.5 - 0.5 * Real.cos (Real.pi *
            (min 1 (max 0 (1 - dropDist 2 2 0 0 0 0 / 1))))) * 0 ∧
    ((1 : ℝ) < dropDist 2 2 0 0 0 0 →
      ((dropField 2 2 0 0 1 0 zeroField) 0 0).r = (zeroField 0 0).r)) :=
  ⟨by norm_num, addDrop_profile 2 2 0 0 1 0 zeroField 0 0 (by norm_num)⟩

/-! ### Whole-field sums and the stability claim -/

/-- Total height over the texture. -/
def sumR (w h : ℕ) (f : Field) : ℝ :=
  ∑ i ∈ Finset.range w, ∑ j ∈ Finset.range h, (f i j).r

/-- Total momentum over the texture. -/
def sumG (w h : ℕ) (f : Field) : ℝ :=
  ∑ i ∈ Finset.range w, ∑ j ∈ Finset.range h, (f i j).g

/-- Mean absolute height of the field. -/
def meanAbsHeight (w h : ℕ) (f : Field) : ℝ :=
  (∑ i ∈ Finset.range w, ∑ j ∈ Finset.range h, |(f i j).r|) / ((w : ℝ) * (h : ℝ))

/-- Summing a low-edge-clamped read over the whole axis. -/
lemma sum_clampL (n : ℕ) (g : ℕ → ℝ) :
    ∑ i ∈ Finset.range (n + 1), g (i - 1) = (∑ i ∈ Finset.range n, g i) + g 0 := by
  rw [Finset.sum_range_succ']
  simp

/-- Summing a high-edge-clamped read over the whole axis. -/
lemma sum_clampR (n : ℕ) (g : ℕ → ℝ) :
    ∑ i ∈ Finset.range (n + 1), g (min (i + 1) n) =
      (∑ i ∈ Finset.range (n + 1), g i) - g 0 + g n := by
  rw [Finset.sum_range_succ]
  have h1 : ∀ i ∈ Finset.range n, g (min (i + 1) n) = g (i + 1) := fun i hi => by
    rw [min_eq_left (Nat.succ_le_of_lt (Finset.mem_range.mp hi))]
  rw [Finset.sum_congr rfl h1, min_eq_right (Nat.le_succ n), Finset.sum_range_succ' g n]
  ring

/-- The clamped neighbour-sampling pattern is doubly stochastic: the left and
right clamped reads together sum to twice the field sum. -/
lemma sum_clamp_pair (n : ℕ) (g : ℕ → ℝ) :
    (∑ i ∈ Finset.range (n + 1), g (i - 1)) +
      (∑ i ∈ Finset.range (n + 1), g (min (i + 1) n)) =
      2 * ∑ i ∈ Finset.range (n + 1), g i := by
  rw [sum_clampL, sum_clampR, Finset.sum_range_succ g n]
  ring

/-- The 4-neighbour averages sum to the height sum. -/
lemma sumAvg_eq (w h : ℕ) (hw : 0 < w) (hh : 0 < h) (f : Field) :
    (∑ i ∈ Finset.range w, ∑ j ∈ Finset.range h, nbrAvg w h f i j) =
      ∑ i ∈ Finset.range w, ∑ j ∈ Finset.range h, (f i j).r := by
  obtain ⟨n, rfl⟩ : ∃ n, w = n + 1 := ⟨w - 1, (Nat.succ_pred_eq_of_pos hw).symm⟩
  obtain ⟨m, rfl⟩ : ∃ m, h = m + 1 := ⟨h - 1, (Nat.succ_pred_eq_of_pos hh).symm⟩
  have hAC := sum_clamp_pair n (fun k => ∑ j ∈ Finset.range (m + 1), (f k j).r)
  simp only [] at hAC
  have hBD : (∑ i ∈ Finset.range (n + 1), ∑ j ∈ Finset.range (m + 1), (f i (j - 1)).r) +
      (∑ i ∈ Finset.range (n + 1), ∑ j ∈ Finset.range (m + 1), (f i (min (j + 1) m)).r) =
      2 * ∑ i ∈ Finset.range (n + 1), ∑ j ∈ Finset.range (m + 1), (f i j).r := by
    rw [← Finset.sum_add_distrib, Finset.mul_sum]
    exact Finset.sum_congr rfl fun i _ => sum_clamp_pair m (fun k => (f i k).r)
  have hsplit : ∀ i ∈ Finset.range (n + 1),
      (∑ j ∈ Finset.range (m + 1), nbrAvg (n + 1) (m + 1) f i j) =
      ((∑ j ∈ Finset.range (m + 1), (f (i - 1) j).r) +
        (∑ j ∈ Finset.range (m + 1), (f i (j - 1)).r) +
        (∑ j ∈ Finset.range (m + 1), (f (min (i + 1) n) j).r) +
        (∑ j ∈ Finset.range (m + 1), (f i (min (j + 1) m)).r)) * 0.25 := by
    intro i _
    have hpt : ∀ j ∈ Finset.range (m + 1), nbrAvg (n + 1) (m + 1) f i j =
        ((f (i - 1) j).r + (f i (j - 1)).r + (f (min (i + 1) n) j).r +
          (f i (min (j + 1) m)).r) * 0.25 := by
      intro j _
      simp only [nbrAvg, Nat.add_sub_cancel]
    rw [Finset.sum_congr rfl hpt, ← Finset.sum_mul, Finset.sum_add_distrib,
      Finset.sum_add_distrib, Finset.sum_add_distrib]
  rw [Finset.sum_congr rfl hsplit, ← Finset.sum_mul, Finset.sum_add_distrib,
    Finset.sum_add_distrib, Finset.sum_add_distrib]
  linear_combination 0.25 * hAC + 0.25 * hBD

/-- Claim C2 (amended): one update pass multiplies the summed momentum by
exactly the damping factor 0.995 and changes the summed height by exactly the
new summed momentum; total height is therefore not driven toward zero. -/
theorem step_sums (w h : ℕ) (f : Field) (hw : 0 < w) (hh : 0 < h) :
    sumG w h (stepField w h f) = 0.995 * sumG w h f ∧
    sumR w h (stepField w h f) = sumR w h f + sumG w h (stepField w h f) := by
  have havg := sumAvg_eq w h hw hh f
  constructor
  · have inner : ∀ i, (∑ j ∈ Finset.range h, (stepField w h f i j).g) =
        0.995 * (∑ j ∈ Finset.range h, (f i j).g) +
          1.99 * (∑ j ∈ Finset.range h, nbrAvg w h f i j) -
          1.99 * (∑ j ∈ Finset.range h, (f i j).r) := by
      intro i
      rw [Finset.mul_sum, Finset.mul_sum, Finset.mul_sum, ← Finset.sum_add_distrib,
        ← Finset.sum_sub_distrib]
      refine Finset.sum_congr rfl fun j _ => ?_
      show ((f i j).g + (nbrAvg w h f i j - (f i j).r) * 2.0) * 0.995 = _
      ring
    have outer : sumG w h (stepField w h f) =
        0.995 * sumG w h f +
          1.99 * (∑ i ∈ Finset.range w, ∑ j ∈ Finset.range h, nbrAvg w h f i j) -
          1.99 * sumR w h f := by
      unfold sumG sumR
      rw [Finset.mul_sum, Finset.mul_sum, Finset.mul_sum, ← Finset.sum_add_distrib,
        ← Finset.sum_sub_distrib]
      exact Finset.sum_congr rfl fun i _ => inner i
    rw [outer, havg]
    unfold sumR
    ring
  · have hpt : ∀ i j, (stepField w h f i j).r = (f i j).r + (stepField w h f i j).g :=
      fun i j => rfl
    unfold sumR sumG
    rw [← Finset.sum_add_distrib]
    refine Finset.sum_congr rfl fun i _ => ?_
    rw [← Finset.sum_add_distrib]
    exact Finset.sum_congr rfl fun j _ => hpt i j

/-- Concrete instance of `step_sums` on the 1×1 constructor field. -/
theorem step_sums_witness :
    0 < 1 ∧
    (sumG 1 1 (stepField 1 1 zeroField) = 0.995 * sumG 1 1 zeroField ∧
      sumR 1 1 (stepField 1 1 zeroField) =
        sumR 1 1 zeroField + sumG 1 1 (stepField 1 1 zeroField)) :=
  ⟨Nat.one_pos, step_sums 1 1 zeroField Nat.one_pos Nat.one_pos⟩

/-! ### Counterexample to decay of the mean absolute height

On a 2×2 simulation, a single centred drop raises all four texels by the same
amount (they are equidistant from the centre) and leaves momentum zero; such a
uniform field is a fixed point of the update pass, so the mean absolute height
stays at a positive constant forever. -/

/-- The field after `addDrop(0, 0, 1, 1)` on the freshly constructed 2×2
simulation. -/
def c2field : Field := dropField 2 2 0 0 1 1 zeroField

/-- The height every texel of `c2field` receives. -/
def dropVal : ℝ := 0.5 - Real.cos ((1 - Real.sqrt 0.125) * Real.pi) * 0.5

lemma sqrt_small : Real.sqrt 0.125 < 1 :=
  (Real.sqrt_lt' one_pos).mpr (by norm_num)

lemma dropVal_pos : 0 < dropVal := by
  have hlt : Real.cos ((1 - Real.sqrt 0.125) * Real.pi) < 1 := by
    have hy : (1 - Real.sqrt 0.125) * Real.pi ≤ Real.pi := by
      have h2 : 1 - Real.sqrt 0.125 ≤ 1 := by
        have := Real.sqrt_nonneg (0.125 : ℝ)
        linarith
      nlinarith [Real.pi_pos]
    have hx : (0 : ℝ) < (1 - Real.sqrt 0.125) * Real.pi := by
      have h3 : 0 < 1 - Real.sqrt 0.125 := by linarith [sqrt_small]
      exact mul_pos h3 Real.pi_pos
    have := Real.cos_lt_cos_of_nonneg_of_le_pi le_rfl hy hx
    rwa [Real.cos_zero] at this
  unfold dropVal
  linarith

lemma dist_per_texel : ∀ i < 2, ∀ j < 2, dropDist 2 2 0 0 i j = Real.sqrt 0.125 := by
  intro i hi j hj
  interval_cases i <;> interval_cases j <;>
    · unfold dropDist texCenter
      norm_num

lemma c2field_uniform : ∀ i < 2, ∀ j < 2, c2field i j = ⟨dropVal, 0, 0, 0⟩ := by
  intro i hi j hj
  have hd := dist_per_texel i hi j hj
  have hmax : max 0 (1 - Real.sqrt 0.125) = 1 - Real.sqrt 0.125 :=
    max_eq_right (by linarith [sqrt_small])
  show dropCell 2 2 0 0 1 1 zeroField i j = ⟨dropVal, 0, 0, 0⟩
  unfold dropCell
  rw [hd]
  ext <;> simp [zeroField, div_one, hmax, dropVal]

lemma step_preserves_uniform (f : Field) (v : ℝ)
    (hf : ∀ i < 2, ∀ j < 2, f i j = ⟨v, 0, 0, 0⟩) :
    ∀ i < 2, ∀ j < 2, stepField 2 2 f i j = ⟨v, 0, 0, 0⟩ := by
  intro i hi j hj
  show stepCell 2 2 f i j = ⟨v, 0, 0, 0⟩
  unfold stepCell nbrAvg
  norm_num
  rw [hf i hi j hj, hf (i - 1) (by omega) j hj, hf i hi (j - 1) (by omega),
    hf 1 (by norm_num) j hj, hf i hi 1 (by norm_num)]
  refine ⟨?_, ?_, rfl, rfl⟩ <;> simp <;> ring_nf

lemma iterate_uniform (n : ℕ) :
    ∀ i < 2, ∀ j < 2, (stepField 2 2)^[n] c2field i j = ⟨dropVal, 0, 0, 0⟩ := by
  induction n with
  | zero => exact c2field_uniform
  | succ n ih =>
    rw [Function.iterate_succ_apply']
    exact step_preserves_uniform _ _ ih

lemma mean_uniform (f : Field) (v : ℝ)
    (hf : ∀ i < 2, ∀ j < 2, f i j = ⟨v, 0, 0, 0⟩) : meanAbsHeight 2 2 f = |v| := by
  have h00 := hf 0 (by norm_num) 0 (by norm_num)
  have h01 := hf 0 (by norm_num) 1 (by norm_num)
  have h10 := hf 1 (by norm_num) 0 (by norm_num)
  have h11 := hf 1 (by norm_num) 1 (by norm_num)
  simp [meanAbsHeight, Finset.sum_range_succ, h00, h01, h10, h11]
  ring

lemma applyOps_replicate_step (w h n : ℕ) (s : Sim) :
    (applyOps w h (List.replicate n .step) s).texA.data =
      (stepField w h)^[n] s.texA.data := by
  induction n generalizing s with
  | zero => rfl
  | succ n ih =>
    rw [List.replicate_succ]
    show (applyOps w h (List.replicate n .step) (applyOp w h .step s)).texA.data = _
    rw [ih (applyOp w h .step s), Function.iterate_succ_apply]
    rfl

/-- Claim C2 is false as stated: on the 2×2 simulation, after the single
bounded-strength drop `addDrop(0, 0, 1, 1)` and no further input, iterating
`stepSimulation()` keeps the mean absolute height at a positive constant — it
does not converge toward zero. -/
theorem stability_counterexample :
    ¬ Filter.Tendsto
        (fun n => meanAbsHeight 2 2
          ((applyOps 2 2 (List.replicate n .step)
            (applyOp 2 2 (.drop 0 0 1 1) simInit)).texA.data))
        Filter.atTop (nhds 0) := by
  have hinit : (applyOp 2 2 (.drop 0 0 1 1) simInit).texA.data = c2field := rfl
  have hconst : ∀ n, meanAbsHeight 2 2
      ((applyOps 2 2 (List.replicate n .step)
        (applyOp 2 2 (.drop 0 0 1 1) simInit)).texA.data) = dropVal := by
    intro n
    rw [applyOps_replicate_step, hinit, mean_uniform _ _ (iterate_uniform n),
      abs_of_pos dropVal_pos]
  intro hT
  simp only [hconst] at hT
  have h0 : (0 : ℝ) = dropVal := tendsto_nhds_unique hT tendsto_const_nhds
  exact absurd h0.symm (ne_of_gt dropVal_pos)

/-! ### The compositor fragment shader (`RippleBackground.jsx`, `fragSrc`)

GLSL vectors are modelled componentwise; a camera texture is a function from
texture coordinates to its RGB sample (fields `x`, `y`, `z` standing for the
`.r`, `.g`, `.b` channels the shader reads).  GLSL `pow` is modelled by
`Real.rpow`; every exponent in the shader is a baked-in numeric constant. -/

structure Vec3 where
  x : ℝ
  y : ℝ
  z : ℝ

def v3add (a b : Vec3) : Vec3 := ⟨a.x + b.x, a.y + b.y, a.z + b.z⟩

def v3sub (a b : Vec3) : Vec3 := ⟨a.x - b.x, a.y - b.y, a.z - b.z⟩

def v3smul (c : ℝ) (a : Vec3) : Vec3 := ⟨c * a.x, c * a.y, c * a.z⟩

def v3neg (a : Vec3) : Vec3 := ⟨-a.x, -a.y, -a.z⟩

def dot3 (a b : Vec3) : ℝ := a.x * b.x + a.y * b.y + a.z * b.z

/-- GLSL `mix(x, y, a) = x * (1 - a) + y * a`, componentwise. -/
def mix3 (a b : Vec3) (t : ℝ) : Vec3 := v3add (v3smul (1 - t) a) (v3smul t b)

/-- GLSL `normalize`. -/
def normalize3 (a : Vec3) : Vec3 := v3smul (1 / Real.sqrt (dot3 a a)) a

/-- GLSL `reflect(I, N) = I - 2 * dot(N, I) * N`. -/
def reflect3 (i n : Vec3) : Vec3 := v3sub i (v3smul (2 * dot3 n i) n)

/-- GLSL scalar `clamp`. -/
def clampS (x lo hi : ℝ) : ℝ := min (max x lo) hi

/-- GLSL `smoothstep(e0, e1, x)`. -/
def smoothstep (e0 e1 x : ℝ) : ℝ :=
  let t := clampS ((x - e0) / (e1 - e0)) 0 1
  t * t * (3 - 2 * t)

/-- GLSL `distance` between two vec2. -/
def dist2 (p q : ℝ × ℝ) : ℝ := Real.sqrt ((p.1 - q.1) ^ 2 + (p.2 - q.2) ^ 2)

/-! Shader constants: the `WATER_FX` values string-interpolated into the
fragment source, and the fixed colors/lights declared in it. -/

def REFRACTION : ℝ := 0.035
def BLUR_MAX : ℝ := 16.0
def BLUR_START : ℝ := 0.15
def BLUR_END : ℝ := 0.75
def FILTER_COLOR : Vec3 := ⟨0.0, 0.25, 0.55⟩
def FILTER_OPACITY : ℝ := 0.6
def SHINE_INT : ℝ := 1.9
def SHINE_SHARP : ℝ := 100.0
def WET_INT : ℝ := 1.5
def WET_SPREAD : ℝ := 10.0
def SKY_COLOR : Vec3 := ⟨0.2, 0.35, 0.5⟩
def underwaterColor : Vec3 := ⟨0.0, 0.5, 0.8⟩
def lightDir : Vec3 := normalize3 ⟨0.5, 0.7, 0.5⟩
def light2Dir : Vec3 := normalize3 ⟨-0.8, 0.4, 0.2⟩

/-- The camera branch of the compositor `main()` (taken when
`uVideoReady > 0.5`): aspect-ratio-corrected, mirrored video UVs, refraction
offset from the water normal with chromatic aberration, and the conditional
9-tap radial blur. -/
def videoColor (uVideo : ℝ → ℝ → Vec3) (uResolution uVideoRes : ℝ × ℝ)
    (normal : Vec3) (uv : ℝ × ℝ) : Vec3 :=
  let screenAspect := uResolution.1 / uResolution.2
  let vW := max uVideoRes.1 1
  let vH := max uVideoRes.2 1
  let videoAspect := vW / vH
  let texScale : ℝ × ℝ :=
    if screenAspect > videoAspect then (1, videoAspect / screenAspect)
    else (screenAspect / videoAspect, 1)
  let vidUv0 : ℝ × ℝ := ((uv.1 - 0.5) * texScale.1 + 0.5, (uv.2 - 0.5) * texScale.2 + 0.5)
  let vidUv : ℝ × ℝ := (1 - vidUv0.1, vidUv0.2)
  let refr : ℝ × ℝ := (normal.x * REFRACTION, normal.z * REFRACTION)
  let distFromCenter := dist2 vidUv (0.5, 0.5)
  let blurFactor := smoothstep BLUR_START BLUR_END distFromCenter
  let appliedBlur := BLUR_MAX * blurFactor
  let px : ℝ × ℝ := (1 / max uVideoRes.1 1, 1 / max uVideoRes.2 1)
  let tap : ℝ × ℝ → Vec3 := fun off =>
    ⟨(uVideo (clampS (vidUv.1 - refr.1 * 1.1 + off.1) 0.002 0.998)
        (clampS (vidUv.2 - refr.2 * 1.1 + off.2) 0.002 0.998)).x,
      (uVideo (clampS (vidUv.1 - refr.1 * 1.0 + off.1) 0.002 0.998)
        (clampS (vidUv.2 - refr.2 * 1.0 + off.2) 0.002 0.998)).y,
      (uVideo (clampS (vidUv.1 - refr.1 * 0.9 + off.1) 0.002 0.998)
        (clampS (vidUv.2 - refr.2 * 0.9 + off.2) 0.002 0.998)).z⟩
  let baseSample := tap (0, 0)
  if appliedBlur > 0.1 then
    let offs : List (ℝ × ℝ) :=
      [(-1, -1), (-1, 0), (-1, 1), (0, -1), (0, 0), (0, 1), (1, -1), (1, 0), (1, 1)]
    let finalColor := offs.foldl
      (fun acc o => v3add acc (tap (o.1 * appliedBlur * px.1, o.2 * appliedBlur * px.2)))
      ⟨0, 0, 0⟩
    v3smul (1 / 9) finalColor
  else baseSample

/-- The procedural fallback of the compositor `main()` (taken when
`uVideoReady <= 0.5`):
`mix(underwaterColor * 0.2, underwaterColor * 0.5, height * 0.5 + 0.5)`. -/
def fallbackColor (height : ℝ) : Vec3 :=
  mix3 (v3smul 0.2 underwaterColor) (v3smul 0.5 underwaterColor) (height * 0.5 + 0.5)

/-- Steps 3–5 of the compositor `main()`, shared by both branches: specular
lighting, filter tint, surface-depth shading, fresnel sky reflection,
underwater tint and vignette. -/
def compositeLighting (color0 : Vec3) (height : ℝ) (normal : Vec3)
    (vUv : ℝ × ℝ) : Vec3 :=
  let viewDir : Vec3 := ⟨0, 0, 1⟩
  let reflectDir := reflect3 (v3neg lightDir) normal
  let reflect2Dir := reflect3 (v3neg light2Dir) normal
  let fresnel := Real.rpow (1 - max (dot3 normal viewDir) 0) 4.0
  let broadSpecular := Real.rpow (max (dot3 viewDir reflectDir) 0) WET_SPREAD
  let sharpSpecular := Real.rpow (max (dot3 viewDir reflectDir) 0) SHINE_SHARP
  let rimSpecular := Real.rpow (max (dot3 viewDir reflect2Dir) 0) (WET_SPREAD * 0.5)
  let c1 := mix3 color0 FILTER_COLOR FILTER_OPACITY
  let c2 := v3add c1 ⟨height * 0.15, height * 0.15, height * 0.15⟩
  let lighting := v3add
    (v3add (v3smul WET_INT ⟨broadSpecular, broadSpecular, broadSpecular⟩)
      (v3smul SHINE_INT ⟨sharpSpecular, sharpSpecular, sharpSpecular⟩))
    (v3smul (WET_INT * 0.4) ⟨rimSpecular, rimSpecular, rimSpecular⟩)
  let c3 := mix3 c2 SKY_COLOR (fresnel * 0.5 * (normal.y * 0.5 + 0.5))
  let c4 := v3add c3 lighting
  let tintStrength := clampS (height * 0.3) 0 0.4
  let c5 := mix3 c4 underwaterColor tintStrength
  let distV := dist2 vUv (0.5, 0.5)
  let vignette := smoothstep 0.85 0.25 distV
  v3smul vignette c5

/-- The compositor `main()`: sample the water field at `vUv`, reconstruct the
normal from the packed B/A components, take the camera branch or the
procedural fallback on `uVideoReady > 0.5`, then apply the shared lighting
pipeline.  The shader writes `vec4(color, 1.0)`; the constant alpha is the
second component of the result. -/
def fragMain (uWater : ℝ → ℝ → Cell) (uVideo : ℝ → ℝ → Vec3)
    (uResolution uVideoRes : ℝ × ℝ) (uVideoReady : ℝ) (vUv : ℝ × ℝ) : Vec3 × ℝ :=
  let waterInfo := uWater vUv.1 vUv.2
  let height := waterInfo.r
  let d := waterInfo.b * waterInfo.b + waterInfo.a * waterInfo.a
  let normal : Vec3 := ⟨waterInfo.b, Real.sqrt (max 0 (1 - d)), waterInfo.a⟩
  let color0 :=
    if uVideoReady > 0.5 then videoColor uVideo uResolution uVideoRes normal vUv
    else fallbackColor height
  (compositeLighting color0 height normal vUv, 1)

/-- Claim C6: when the camera is not ready the render loop uploads
`uVideoReady = 0`, and the compositor's output at every pixel is then
identical for any two contents of the camera texture: the camera branch is
never taken, so the result is computed from the water field alone (procedural
fallback color plus lighting and vignette). -/
theorem camera_fallback_noninterference (uWater : ℝ → ℝ → Cell)
    (vid1 vid2 : ℝ → ℝ → Vec3) (uResolution uVideoRes : ℝ × ℝ) (vUv : ℝ × ℝ) :
    fragMain uWater vid1 uResolution uVideoRes 0 vUv =
      fragMain uWater vid2 uResolution uVideoRes 0 vUv := by
  unfold fragMain
  norm_num

end

/-! ### Construction failure behaviour (`WaterSimulation` constructor and caller) -/

/-- Which optional WebGL texture extensions the GPU context reports. -/
structure GlCaps where
  floatTex : Bool
  floatLinear : Bool
  halfFloat : Bool

/-- Texture pixel type chosen by `createTexture`. -/
inductive TexType where
  | halfFloatOes : TexType
  | float : TexType

/-- What running the `WaterSimulation` constructor produces. -/
structure SimInitData where
  filterLinear : Bool
  texType : TexType
  width : ℕ
  height : ℕ

/-- The `WaterSimulation` constructor, as executed: it calls
`gl.getExtension('OES_texture_float')` and discards the result, keeps only the
float-linear capability (to pick the filtering mode) and the half-float
capability (to pick the pixel type), and never raises — a failed shader
compile is merely logged with `console.error`, and an unsupported pixel type
in `texImage2D` records a GL error, which does not throw in WebGL.  The result
type is `Except` to make the absence of any `.error` outcome explicit. -/
def waterSimConstruct (caps : GlCaps) (w h : ℕ) : Except String SimInitData :=
  .ok { filterLinear := caps.floatLinear
        texType := if caps.halfFloat then .halfFloatOes else .float
        width := w
        height := h }

/-- The caller (the effect setup in `RippleBackground.jsx`): wraps
`new WaterSimulation(gl, 256, 256)` in try/catch and disables the whole effect
(`return`) only when construction throws. -/
def rippleInitEffect (caps : GlCaps) : Option SimInitData :=
  match waterSimConstruct caps 256 256 with
  | .ok s => some s
  | .error _ => none

/-- Claim C7 fails on the code: with every float-texture extension
unsupported, the constructor still completes normally — no error is raised —
and the caller therefore keeps the effect enabled instead of disabling it. -/
theorem construct_no_failfast :
    waterSimConstruct ⟨false, false, false⟩ 256 256 = .ok ⟨false, .float, 256, 256⟩ ∧
    rippleInitEffect ⟨false, false, false⟩ = some ⟨false, .float, 256, 256⟩ :=
  ⟨rfl, rfl⟩

/-! ### Resize handling (`RippleBackground.jsx`, `resize`)

Plain JavaScript number arithmetic here is modelled over ℚ. -/

/-- The state the resize handler can touch: the canvas backing resolution,
next to the simulation resolution fixed at init (`const simRes = 256`). -/
structure ViewState where
  canvasW : ℤ
  canvasH : ℤ
  simW : ℕ
  simH : ℕ

/-- Handler `resize()`: `dpr = window.devicePixelRatio || 1;
w = Math.floor(window.innerWidth * dpr); h = Math.floor(window.innerHeight * dpr)`,
updating the canvas backing store whenever it differs.  The handler is
registered directly on the resize event (there is no debounce wrapper), it
applies no cap to the device pixel ratio, and it never touches the simulation
resolution. -/
def resizeHandler (dpr innerW innerH : ℚ) (s : ViewState) : ViewState :=
  let dpr := if dpr = 0 then 1 else dpr
  let w := ⌊innerW * dpr⌋
  let h := ⌊innerH * dpr⌋
  if s.canvasW ≠ w ∨ s.canvasH ≠ h then { s with canvasW := w, canvasH := h } else s

/-- Claim C8 fails on the code: at `devicePixelRatio = 2` on a 100×100
viewport the handler sets the backing width to 200 — devicePixelRatio times
the viewport, uncapped — while the claimed `min(devicePixelRatio, cap)`
formula gives 150 at the observed cap 1.5 (and at most 150 for any cap in the
observed 1.0–1.5 range). -/
theorem resize_uncapped_counterexample :
    (resizeHandler 2 100 100 ⟨300, 150, 256, 256⟩).canvasW = 200 ∧
    min (2 : ℚ) 1.5 * 100 = 150 ∧ (200 : ℤ) ≠ 150 := by
  refine ⟨?_, by norm_num, by norm_num⟩
  norm_num [resizeHandler]

/-- Claim C8 (amended): a resize event recomputes the canvas backing
resolution immediately (no debounce) as `floor(devicePixelRatio × viewport)`
with no cap applied to the device pixel ratio, and the 256×256 simulation
resolution is unchanged by resizes. -/
theorem resize_behaviour (dpr innerW innerH : ℚ) (s : ViewState) (hd : dpr ≠ 0) :
    (resizeHandler dpr innerW innerH s).canvasW = ⌊innerW * dpr⌋ ∧
    (resizeHandler dpr innerW innerH s).canvasH = ⌊innerH * dpr⌋ ∧
    (resizeHandler dpr innerW innerH s).simW = s.simW ∧
    (resizeHandler dpr innerW innerH s).simH = s.simH := by
  unfold resizeHandler
  rw [if_neg hd]
  by_cases hc : s.canvasW ≠ ⌊innerW * dpr⌋ ∨ s.canvasH ≠ ⌊innerH * dpr⌋
  · rw [if_pos hc]
    exact ⟨rfl, rfl, rfl, rfl⟩
  · rw [if_neg hc]
    push_neg at hc
    exact ⟨hc.1, hc.2, rfl, rfl⟩

/-- Concrete instance of `resize_behaviour` at `devicePixelRatio = 2` on a
100×100 viewport. -/
theorem resize_behaviour_witness :
    (2 : ℚ) ≠ 0 ∧
    ((resizeHandler 2 100 100 ⟨300, 150, 256, 256⟩).canvasW = ⌊(100 : ℚ) * 2⌋ ∧
      (resizeHandler 2 100 100 ⟨300, 150, 256, 256⟩).canvasH = ⌊(100 : ℚ) * 2⌋ ∧
      (resizeHandler 2 100 100 ⟨300, 150, 256, 256⟩).simW = 256 ∧
      (resizeHandler 2 100 100 ⟨300, 150, 256, 256⟩).simH = 256) :=
  ⟨by norm_num, resize_behaviour 2 100 100 ⟨300, 150, 256, 256⟩ (by norm_num)⟩

/-! ### Autoplay retry (`RippleBackground.jsx`, `startCamera` / `forcePlay`) -/

/-- Listener and playback state after the initial `video.play()` rejection:
`forcePlay` is registered on both `click` and `touchstart` (always added and
removed together, hence one flag). -/
structure AutoplayState where
  listening : Bool
  videoReady : Bool
  playAttempts : ℕ

/-- The state right after the initial autoplay rejection registered the
gesture listeners. -/
def autoplayBlocked : AutoplayState := ⟨true, false, 0⟩

/-- Handler `forcePlay`: calls `video.play()` again (its outcome is the parameter);
on success sets `videoReady` and removes both listeners.  A rejected retry is
not handled — the promise has no rejection handler — so nothing changes and
the listeners stay registered. -/
def forcePlay (succeeded : Bool) (s : AutoplayState) : AutoplayState :=
  if succeeded then
    { listening := false, videoReady := true, playAttempts := s.playAttempts + 1 }
  else
    { s with playAttempts := s.playAttempts + 1 }

/-- One user gesture (click or touchstart): runs `forcePlay` while the
listeners are registered, and does nothing once they were removed. -/
def gesture (succeeded : Bool) (s : AutoplayState) : AutoplayState :=
  if s.listening then forcePlay succeeded s else s

/-- A sequence of user gestures with the given `video.play()` outcomes. -/
def runGestures (outcomes : List Bool) (s : AutoplayState) : AutoplayState :=
  outcomes.foldl (fun t o => gesture o t) s

/-- Once the listeners are removed, further gestures change nothing. -/
lemma runGestures_inactive (outcomes : List Bool) (s : AutoplayState)
    (h : s.listening = false) : runGestures outcomes s = s := by
  induction outcomes with
  | nil => rfl
  | cons o rest ih =>
    show runGestures rest (gesture o s) = s
    rw [gesture, h]
    simpa using ih

/-- While the listeners are registered, the ready flag and the listener flag
after a gesture sequence are determined by whether some retry succeeded. -/
lemma runGestures_active (outcomes : List Bool) (k : ℕ) :
    (runGestures outcomes ⟨true, false, k⟩).videoReady = outcomes.contains true ∧
    (runGestures outcomes ⟨true, false, k⟩).listening = !(outcomes.contains true) := by
  induction outcomes generalizing k with
  | nil => exact ⟨rfl, rfl⟩
  | cons o rest ih =>
    cases o
    · have hstep : runGestures (false :: rest) ⟨true, false, k⟩ =
          runGestures rest ⟨true, false, k + 1⟩ := rfl
      rw [hstep]
      simpa using ih (k + 1)
    · have hstep : runGestures (true :: rest) ⟨true, false, k⟩ =
          runGestures rest ⟨false, true, k + 1⟩ := rfl
      rw [hstep, runGestures_inactive rest _ rfl]
      simp

/-- Every failed retry still counts an attempt and leaves the listeners on. -/
lemma runGestures_all_failures (n k : ℕ) :
    runGestures (List.replicate n false) ⟨true, false, k⟩ = ⟨true, false, k + n⟩ := by
  induction n generalizing k with
  | zero => rfl
  | succ n ih =>
    rw [List.replicate_succ]
    have hstep : runGestures (false :: List.replicate n false) ⟨true, false, k⟩ =
        runGestures (List.replicate n false) ⟨true, false, k + 1⟩ := rfl
    rw [hstep, ih (k + 1)]
    congr 1
    omega

/-- Claim C9 fails on the code: after the initial rejection, two user gestures
whose retried `play()` calls both fail produce two retry attempts, with the
listeners still registered afterwards — the retry is neither one-shot nor
given up after the first failure. -/
theorem autoplay_retry_counterexample :
    (runGestures [false, false] autoplayBlocked).playAttempts = 2 ∧
    (runGestures [false, false] autoplayBlocked).listening = true :=
  ⟨rfl, rfl⟩

/-- Claim C9 (amended): the gesture listeners retry playback on every
subsequent gesture until a retry succeeds; the first success sets the ready
flag and deregisters both listeners (later gestures then do nothing), while
each failed retry is ignored silently and leaves the listeners registered for
further retries. -/
theorem autoplay_retry_behaviour (outcomes : List Bool) (n : ℕ) :
    (runGestures outcomes autoplayBlocked).videoReady = outcomes.contains true ∧
    (runGestures outcomes autoplayBlocked).listening = !(outcomes.contains true) ∧
    (runGestures (List.replicate n false) autoplayBlocked).playAttempts = n := by
  refine ⟨(runGestures_active outcomes 0).1, (runGestures_active outcomes 0).2, ?_⟩
  rw [show autoplayBlocked = ⟨true, false, 0⟩ from rfl, runGestures_all_failures]
  show 0 + n = n
  omega

end Ripple
